import Mathlib

/-!
# Verification of the splitje-be pairwise ledger core

Shallow embedding of the pairwise ledger consistency engine of the
`splitje-be` repository:

* `create_transaction` embeds `src/src/http/transactions.rs::create_transaction`;
* `add_user_to_group` embeds
  `src/src/http/groups.rs::add_user_to_group_inner` together with
  `create_ledger_entries` (equivalently
  `src/classic/src/logic/group.rs::add_user_to_group` with
  `src/classic/src/logic/ledger.rs::init_ledger_entries` — the two variants
  construct the same rows: membership insert, snapshot read of the members
  inside the same transaction, filter out the new member by id, bulk insert);
* `init_ledger_entries` embeds
  `src/classic/src/logic/ledger.rs::init_ledger_entries`
  (= `create_ledger_entries`'s array construction in `src/src/http/groups.rs`).

Database state is modelled as explicit lists of rows; a SQL `UPDATE` is a map
over the row list touching exactly the rows matched by the `WHERE` clause
(matching zero rows succeeds and changes nothing, as in SQL); every operation
either returns the fully committed new state or an error with no state change
(errors before `commit` roll the unit of work back).  Opaque 128-bit ids are
modelled as `Nat`; signed 64-bit amounts as `Int` (no claim under scrutiny
depends on i64 wrap-around, and the SQL layer raises an error — hence a
rollback — on bigint overflow).
-/

/-- Transaction kind, from `TxType` in `src/src/http/transactions.rs`. -/
inductive TxType
  | Credit
  | Debit
deriving DecidableEq, Repr

/-- Acknowledgement status, from `AckStatus` in `src/src/http/transactions.rs`. -/
inductive AckStatus
  | NotAck
  | Ack
deriving DecidableEq, Repr

/-- One row of the `ledgers` table: `(group_id, this_user, other_user, amount)`. -/
structure LedgerRow where
  group_id : Nat
  this_user : Nat
  other_user : Nat
  amount : Int
deriving DecidableEq, Repr

/-- One row of the `transactions` table, in the column order of the
`INSERT` in `create_transaction`. -/
structure TransactionRow where
  payer_id : Nat
  payee_id : Nat
  group_id : Nat
  amount : Int
  tx_type : TxType
  ack_status : AckStatus
  metadata : List (String × String)
deriving DecidableEq, Repr

/-- The database state relevant to the ledger core: `user_groups` rows as
`(user_id, group_id)` pairs, `ledgers` rows, and `transactions` rows. -/
structure Db where
  memberships : List (Nat × Nat)
  ledgers : List LedgerRow
  transactions : List TransactionRow
deriving DecidableEq, Repr

/-- Errors surfaced by the embedded handlers (from `http::Error`):
`Forbidden` for failed membership checks, `UnprocessableEntity` for
constraint violations. -/
inductive Error
  | Forbidden
  | UnprocessableEntity
deriving DecidableEq, Repr

/-- The `WHERE group_id = $2 AND this_user = $3 AND other_user = $4` clause of
the two ledger `UPDATE` statements in `create_transaction`. -/
def lmatch (g a b : Nat) (r : LedgerRow) : Bool :=
  r.group_id == g && r.this_user == a && r.other_user == b

/-- `UPDATE "ledgers" SET amount = amount + $1 WHERE ...` — adds `d` to every
row matching `(g, a, b)`; matching no row is not an error. -/
def ledgerAdd (g a b : Nat) (d : Int) (rows : List LedgerRow) : List LedgerRow :=
  rows.map (fun r => if lmatch g a b r then { r with amount := r.amount + d } else r)

/-- `UPDATE "ledgers" SET amount = amount - $1 WHERE ...` — subtracts `d` from
every row matching `(g, a, b)`. -/
def ledgerSub (g a b : Nat) (d : Int) (rows : List LedgerRow) : List LedgerRow :=
  rows.map (fun r => if lmatch g a b r then { r with amount := r.amount - d } else r)

/-- The member list of a group: `get_users_by_group` /
`get_users_by_group_inner` joins `users` with `user_groups` on
`user_groups.group_id = $1`; with membership rows as `(user_id, group_id)`
pairs this projects the user ids of the group's membership rows. -/
def get_users_by_group (memberships : List (Nat × Nat)) (group_id : Nat) : List Nat :=
  (memberships.filter (fun m => m.2 == group_id)).map Prod.fst

/-- `users::is_user_in_group`: fetches the groups of `user_id` and tests
`any (|g| g.id == group_id)` — i.e. whether the `(user_id, group_id)`
membership row exists. -/
def is_user_in_group (s : Db) (user_id group_id : Nat) : Bool :=
  s.memberships.any (fun m => m.1 == user_id && m.2 == group_id)

/-- `init_ledger_entries` (`src/classic/src/logic/ledger.rs`, identically the
tail of `create_ledger_entries` in `src/src/http/groups.rs`): given the new
member `user_id` and the snapshot `other` of the group's other members, returns
the bulk-inserted ledger rows.  Empty `other` inserts nothing.  Otherwise the
left id array is `other` chained with `user_id` cycled `other.length` times,
the right id array is `user_id` cycled `other.length` times chained with
`other`, and the `INSERT ... VALUES ($1, unnest($2), unnest($3))` inserts the
rows read off position-wise.  The `INSERT` omits the `amount` column;
its value — modelled from the spec, the schema being outside the sources —
is the default `0` ("initialized to zero"). -/
def init_ledger_entries (group_id user_id : Nat) (other : List Nat) : List LedgerRow :=
  if other.isEmpty then []
  else
    let left_side_ids := other ++ List.replicate other.length user_id
    let right_side_ids := List.replicate other.length user_id ++ other
    (left_side_ids.zip right_side_ids).map
      (fun p => { group_id := group_id, this_user := p.1, other_user := p.2, amount := 0 })

/-- Result of `add_user_to_group`: the committed state, or an error with the
unit of work rolled back. -/
inductive AddResult
  | ok (s : Db) : AddResult
  | err (e : Error) : AddResult
deriving DecidableEq, Repr

/-- `add_user_to_group_inner` + `create_ledger_entries`
(`src/src/http/groups.rs`; the classic variant in
`src/classic/src/logic/group.rs` behaves identically): inserts the
`user_groups` row, re-reads the group's members inside the same transaction
(the snapshot therefore includes the new member), filters the new member out
by id, and bulk-inserts the pairwise ledger rows; commit at the end.  The
`unique (group_id, user_id)` constraint on memberships — modelled from the
spec ("Unique on (group, user)", `DuplicateMembership`), the schema being
outside the sources — makes the insert fail when the row already exists,
rolling the unit of work back. -/
def add_user_to_group (s : Db) (user_id group_id : Nat) : AddResult :=
  if (user_id, group_id) ∈ s.memberships then
    .err .UnprocessableEntity
  else
    let memberships := s.memberships ++ [(user_id, group_id)]
    let other_users_in_group_ids :=
      (get_users_by_group memberships group_id).filter (fun id => id != user_id)
    .ok { s with
          memberships := memberships,
          ledgers := s.ledgers ++ init_ledger_entries group_id user_id other_users_in_group_ids }

/-- Request body of `create_transaction` (`NewTx`): the payer is the
authenticated user and is not part of the body. -/
structure NewTx where
  group_id : Nat
  payee_id : Nat
  amount : Int
  tx_type : TxType
  metadata : Option (List (String × String))
deriving DecidableEq, Repr

/-- Result of `create_transaction`: the committed state together with the
response `Transaction` body, or an error with everything rolled back. -/
inductive TxResult
  | ok (s : Db) (resp : TransactionRow) : TxResult
  | err (e : Error) : TxResult
deriving DecidableEq, Repr

/-- `create_transaction` (`src/src/http/transactions.rs`): membership checks
on the authenticated payer and on the payee (each failure returns `Forbidden`
before any write); sign normalization `amount := -req.amount` for `Debit`;
then, in one database transaction: insert the `transactions` row carrying the
*normalized* `amount`, apply `amount = amount + $1` to the `(payer, payee)`
ledger row and `amount = amount - $1` to the `(payee, payer)` ledger row
(each `UPDATE` touching whatever rows match, possibly none), and commit.
The response body carries the caller's original `req.amount`. -/
def create_transaction (s : Db) (auth_user : Nat) (req : NewTx) : TxResult :=
  if !(is_user_in_group s auth_user req.group_id) then
    .err .Forbidden
  else if !(is_user_in_group s req.payee_id req.group_id) then
    .err .Forbidden
  else
    let req_metadata := req.metadata.getD []
    let amount := if TxType.Debit = req.tx_type then -req.amount else req.amount
    let txnRow : TransactionRow :=
      { payer_id := auth_user, payee_id := req.payee_id, group_id := req.group_id,
        amount := amount, tx_type := req.tx_type, ack_status := .NotAck,
        metadata := req_metadata }
    let ledgers1 := ledgerAdd req.group_id auth_user req.payee_id amount s.ledgers
    let ledgers2 := ledgerSub req.group_id req.payee_id auth_user amount ledgers1
    .ok { s with
          transactions := s.transactions ++ [txnRow],
          ledgers := ledgers2 }
      { payer_id := auth_user, payee_id := req.payee_id, group_id := req.group_id,
        amount := req.amount, tx_type := req.tx_type, ack_status := .NotAck,
        metadata := req_metadata }

/-- The operations of the ledger core that mutate state. -/
inductive Op
  | addMember (user_id group_id : Nat)
  | postTx (auth_user : Nat) (req : NewTx)
deriving DecidableEq, Repr

/-- One operation applied to the state: a failed operation is rolled back and
leaves the state unchanged. -/
def step (s : Db) (op : Op) : Db :=
  match op with
  | .addMember u g =>
      match add_user_to_group s u g with
      | .ok s1 => s1
      | .err _ => s
  | .postTx u req =>
      match create_transaction s u req with
      | .ok s1 _ => s1
      | .err _ => s

/-- The empty initial state: no groups joined, empty ledger, no transactions. -/
def initDb : Db := { memberships := [], ledgers := [], transactions := [] }

/-- State after running a sequence of operations from the empty state. -/
def run (ops : List Op) : Db := ops.foldl step initDb

/-- A state is reachable when some operation sequence from the empty state
produces it. -/
def Reachable (s : Db) : Prop := ∃ ops : List Op, run ops = s

/-- Balance read path, modelled from the spec:
`get_balance(group, a, b) = entry(a,b).amount` — over the row multiset, the
sum of the amounts of the rows matching `(group, a, b)` (in reachable states
there is at most one). -/
def balL (rows : List LedgerRow) (g a b : Nat) : Int :=
  match rows with
  | [] => 0
  | r :: rs => (if lmatch g a b r then r.amount else 0) + balL rs g a b

/-- Modelled from the spec: `get_balance(group, a, b) → signed amount`,
defined as `entry(a,b).amount`. -/
def get_balance (s : Db) (group a b : Nat) : Int :=
  balL s.ledgers group a b

/-- Number of ledger rows matching `(g, a, b)`. -/
def countL (rows : List LedgerRow) (g a b : Nat) : Nat :=
  match rows with
  | [] => 0
  | r :: rs => (if lmatch g a b r then 1 else 0) + countL rs g a b

/-- Number of occurrences of `x` in a list of ids. -/
def cnt (x : Nat) : List Nat → Nat
  | [] => 0
  | y :: ys => (if y = x then 1 else 0) + cnt x ys

/-- Number of occurrences of a membership pair. -/
def pcount (p : Nat × Nat) : List (Nat × Nat) → Nat
  | [] => 0
  | q :: qs => (if q = p then 1 else 0) + pcount p qs

/-! ## Basic facts about row matching, balances and counts -/

theorem lmatch_iff (g a b : Nat) (r : LedgerRow) :
    lmatch g a b r = true ↔ r.group_id = g ∧ r.this_user = a ∧ r.other_user = b := by
  simp [lmatch, Bool.and_eq_true, beq_iff_eq, and_assoc]

theorem lmatch_set_amount (g a b : Nat) (r : LedgerRow) (x : Int) :
    lmatch g a b { r with amount := x } = lmatch g a b r := by
  cases r; rfl

theorem balL_append (l1 l2 : List LedgerRow) (g a b : Nat) :
    balL (l1 ++ l2) g a b = balL l1 g a b + balL l2 g a b := by
  induction l1 with
  | nil => simp [balL]
  | cons r rs ih => simp [balL, ih]; ring

theorem countL_append (l1 l2 : List LedgerRow) (g a b : Nat) :
    countL (l1 ++ l2) g a b = countL l1 g a b + countL l2 g a b := by
  induction l1 with
  | nil => simp [countL]
  | cons r rs ih => simp [countL, ih]; ring

theorem balL_cons (r : LedgerRow) (rs : List LedgerRow) (g a b : Nat) :
    balL (r :: rs) g a b = (if lmatch g a b r then r.amount else 0) + balL rs g a b := rfl

theorem countL_cons (r : LedgerRow) (rs : List LedgerRow) (g a b : Nat) :
    countL (r :: rs) g a b = (if lmatch g a b r then 1 else 0) + countL rs g a b := rfl

theorem ledgerAdd_cons (g a b : Nat) (d : Int) (r : LedgerRow) (rs : List LedgerRow) :
    ledgerAdd g a b d (r :: rs) =
      (if lmatch g a b r then { r with amount := r.amount + d } else r) ::
        ledgerAdd g a b d rs := rfl

theorem ledgerSub_cons (g a b : Nat) (d : Int) (r : LedgerRow) (rs : List LedgerRow) :
    ledgerSub g a b d (r :: rs) =
      (if lmatch g a b r then { r with amount := r.amount - d } else r) ::
        ledgerSub g a b d rs := rfl

theorem countL_ledgerAdd (rows : List LedgerRow) (g a b : Nat) (d : Int) (g' x y : Nat) :
    countL (ledgerAdd g a b d rows) g' x y = countL rows g' x y := by
  induction rows with
  | nil => rfl
  | cons r rs ih =>
      rw [ledgerAdd_cons]
      by_cases hm : lmatch g a b r = true
      · rw [if_pos hm, countL_cons, countL_cons, lmatch_set_amount, ih]
      · rw [if_neg hm, countL_cons, countL_cons, ih]

theorem countL_ledgerSub (rows : List LedgerRow) (g a b : Nat) (d : Int) (g' x y : Nat) :
    countL (ledgerSub g a b d rows) g' x y = countL rows g' x y := by
  induction rows with
  | nil => rfl
  | cons r rs ih =>
      rw [ledgerSub_cons]
      by_cases hm : lmatch g a b r = true
      · rw [if_pos hm, countL_cons, countL_cons, lmatch_set_amount, ih]
      · rw [if_neg hm, countL_cons, countL_cons, ih]

theorem lmatch_unique (g a b g' x y : Nat) (r : LedgerRow)
    (h1 : lmatch g a b r = true) (h2 : lmatch g' x y r = true) :
    g = g' ∧ a = x ∧ b = y := by
  rw [lmatch_iff] at h1 h2
  exact ⟨h1.1 ▸ h2.1.symm ▸ rfl, h1.2.1 ▸ h2.2.1.symm ▸ rfl, h1.2.2 ▸ h2.2.2.symm ▸ rfl⟩

theorem amount_set (r : LedgerRow) (x : Int) :
    ({ r with amount := x } : LedgerRow).amount = x := rfl

theorem balL_ledgerAdd (rows : List LedgerRow) (g a b : Nat) (d : Int) (g' x y : Nat) :
    balL (ledgerAdd g a b d rows) g' x y =
      balL rows g' x y +
        (if g = g' ∧ a = x ∧ b = y then d * (countL rows g a b : Int) else 0) := by
  induction rows with
  | nil => simp [ledgerAdd, balL, countL]
  | cons r rs ih =>
      rw [ledgerAdd_cons]
      by_cases hm : lmatch g a b r = true
      · rw [if_pos hm, balL_cons, balL_cons, countL_cons, if_pos hm, lmatch_set_amount,
          amount_set, ih]
        by_cases hC : g = g' ∧ a = x ∧ b = y
        · obtain ⟨h1, h2, h3⟩ := hC
          subst h1; subst h2; subst h3
          rw [if_pos hm, if_pos hm,
            if_pos (show g = g ∧ a = a ∧ b = b from ⟨rfl, rfl, rfl⟩),
            if_pos (show g = g ∧ a = a ∧ b = b from ⟨rfl, rfl, rfl⟩)]
          push_cast
          ring
        · have hm2 : ¬ (lmatch g' x y r = true) := fun hm2 =>
            hC (lmatch_unique g a b g' x y r hm hm2)
          rw [if_neg hm2, if_neg hm2, if_neg hC, if_neg hC]
          ring
      · rw [if_neg hm, balL_cons, balL_cons, countL_cons, if_neg hm, ih]
        by_cases hC : g = g' ∧ a = x ∧ b = y
        · rw [if_pos hC, if_pos hC]
          push_cast
          ring
        · rw [if_neg hC, if_neg hC]
          ring

theorem balL_ledgerSub (rows : List LedgerRow) (g a b : Nat) (d : Int) (g' x y : Nat) :
    balL (ledgerSub g a b d rows) g' x y =
      balL rows g' x y -
        (if g = g' ∧ a = x ∧ b = y then d * (countL rows g a b : Int) else 0) := by
  induction rows with
  | nil => simp [ledgerSub, balL, countL]
  | cons r rs ih =>
      rw [ledgerSub_cons]
      by_cases hm : lmatch g a b r = true
      · rw [if_pos hm, balL_cons, balL_cons, countL_cons, if_pos hm, lmatch_set_amount,
          amount_set, ih]
        by_cases hC : g = g' ∧ a = x ∧ b = y
        · obtain ⟨h1, h2, h3⟩ := hC
          subst h1; subst h2; subst h3
          rw [if_pos hm, if_pos hm,
            if_pos (show g = g ∧ a = a ∧ b = b from ⟨rfl, rfl, rfl⟩),
            if_pos (show g = g ∧ a = a ∧ b = b from ⟨rfl, rfl, rfl⟩)]
          push_cast
          ring
        · have hm2 : ¬ (lmatch g' x y r = true) := fun hm2 =>
            hC (lmatch_unique g a b g' x y r hm hm2)
          rw [if_neg hm2, if_neg hm2, if_neg hC, if_neg hC]
          ring
      · rw [if_neg hm, balL_cons, balL_cons, countL_cons, if_neg hm, ih]
        by_cases hC : g = g' ∧ a = x ∧ b = y
        · rw [if_pos hC, if_pos hC]
          push_cast
          ring
        · rw [if_neg hC, if_neg hC]
          ring

/-! ## The rows inserted by the ledger initializer -/

theorem zip_replicate_right (E : List Nat) (u : Nat) :
    E.zip (List.replicate E.length u) = E.map (fun m => (m, u)) := by
  induction E with
  | nil => rfl
  | cons m ms ih => simp [List.replicate_succ, ih]

theorem zip_replicate_left (E : List Nat) (u : Nat) :
    (List.replicate E.length u).zip E = E.map (fun m => (u, m)) := by
  induction E with
  | nil => rfl
  | cons m ms ih => simp [List.replicate_succ, ih]

theorem cnt_cons (x y : Nat) (ys : List Nat) :
    cnt x (y :: ys) = (if y = x then 1 else 0) + cnt x ys := rfl

theorem pcount_cons (p q : Nat × Nat) (qs : List (Nat × Nat)) :
    pcount p (q :: qs) = (if q = p then 1 else 0) + pcount p qs := rfl

theorem init_ledger_entries_eq (g u : Nat) (E : List Nat) :
    init_ledger_entries g u E =
      if E.isEmpty then []
      else
        E.map (fun m => ({ group_id := g, this_user := m, other_user := u, amount := 0 } : LedgerRow)) ++
          E.map (fun m => ({ group_id := g, this_user := u, other_user := m, amount := 0 } : LedgerRow)) := by
  by_cases hE : E.isEmpty
  · rw [if_pos hE]
    unfold init_ledger_entries
    rw [if_pos hE]
  · rw [if_neg hE]
    show (if E.isEmpty then []
      else ((E ++ List.replicate E.length u).zip (List.replicate E.length u ++ E)).map
        (fun p => ({ group_id := g, this_user := p.1, other_user := p.2, amount := 0 } : LedgerRow))) = _
    rw [if_neg hE]
    rw [List.zip_append (by simp), zip_replicate_right, zip_replicate_left,
      List.map_append, List.map_map, List.map_map]
    rfl

theorem init_ledger_entries_amount (g u : Nat) (E : List Nat) (r : LedgerRow)
    (hr : r ∈ init_ledger_entries g u E) : r.amount = 0 := by
  rw [init_ledger_entries_eq] at hr
  by_cases hE : E.isEmpty
  · rw [if_pos hE] at hr
    simp at hr
  · rw [if_neg hE] at hr
    rcases List.mem_append.mp hr with h | h <;>
      · obtain ⟨m, _, hm⟩ := List.mem_map.mp h
        rw [← hm]

theorem init_ledger_entries_endpoint (g u : Nat) (E : List Nat) (r : LedgerRow)
    (hr : r ∈ init_ledger_entries g u E) : r.this_user = u ∨ r.other_user = u := by
  rw [init_ledger_entries_eq] at hr
  by_cases hE : E.isEmpty
  · rw [if_pos hE] at hr
    simp at hr
  · rw [if_neg hE] at hr
    rcases List.mem_append.mp hr with h | h
    · obtain ⟨m, _, hm⟩ := List.mem_map.mp h
      right
      rw [← hm]
    · obtain ⟨m, _, hm⟩ := List.mem_map.mp h
      left
      rw [← hm]

theorem balL_zero_amounts (rows : List LedgerRow) (g a b : Nat)
    (h : ∀ r ∈ rows, r.amount = 0) : balL rows g a b = 0 := by
  induction rows with
  | nil => rfl
  | cons r rs ih =>
      rw [balL_cons, ih (fun r hr => h r (List.mem_cons_of_mem _ hr))]
      rw [h r (List.mem_cons_self _ _)]
      simp

theorem balL_init_ledger_entries (g u : Nat) (E : List Nat) (g' a b : Nat) :
    balL (init_ledger_entries g u E) g' a b = 0 :=
  balL_zero_amounts _ g' a b (init_ledger_entries_amount g u E)

theorem countL_map_pair_left (E : List Nat) (g u g' a b : Nat) :
    countL (E.map (fun m => ({ group_id := g, this_user := m, other_user := u, amount := 0 } : LedgerRow))) g' a b =
      if g = g' ∧ u = b then cnt a E else 0 := by
  induction E with
  | nil => simp [countL, cnt]
  | cons m ms ih =>
      rw [List.map_cons, countL_cons, ih, cnt_cons]
      by_cases hC : g = g' ∧ u = b
      · obtain ⟨h1, h2⟩ := hC
        subst h1; subst h2
        simp only [and_self, if_true, eq_self_iff_true]
        by_cases hm : m = a
        · subst hm
          rw [if_pos (by simp [lmatch]), if_pos rfl]
        · rw [if_neg (by rw [lmatch_iff]; rintro ⟨h1, h2, h3⟩; exact hm h2), if_neg hm]
      · have hhead : ¬ (lmatch g' a b { group_id := g, this_user := m, other_user := u, amount := 0 } = true) := by
          rw [lmatch_iff]
          rintro ⟨h1, h2, h3⟩
          exact hC ⟨h1, h3⟩
        rw [if_neg hhead, if_neg hC, if_neg hC]

theorem countL_map_pair_right (E : List Nat) (g u g' a b : Nat) :
    countL (E.map (fun m => ({ group_id := g, this_user := u, other_user := m, amount := 0 } : LedgerRow))) g' a b =
      if g = g' ∧ u = a then cnt b E else 0 := by
  induction E with
  | nil => simp [countL, cnt]
  | cons m ms ih =>
      rw [List.map_cons, countL_cons, ih, cnt_cons]
      by_cases hC : g = g' ∧ u = a
      · obtain ⟨h1, h2⟩ := hC
        subst h1; subst h2
        simp only [and_self, if_true, eq_self_iff_true]
        by_cases hm : m = b
        · subst hm
          rw [if_pos (by simp [lmatch]), if_pos rfl]
        · rw [if_neg (by rw [lmatch_iff]; rintro ⟨h1, h2, h3⟩; exact hm h3), if_neg hm]
      · have hhead : ¬ (lmatch g' a b { group_id := g, this_user := u, other_user := m, amount := 0 } = true) := by
          rw [lmatch_iff]
          rintro ⟨h1, h2, h3⟩
          exact hC ⟨h1, h2⟩
        rw [if_neg hhead, if_neg hC, if_neg hC]

theorem countL_init_ledger_entries (g u : Nat) (E : List Nat) (g' a b : Nat) :
    countL (init_ledger_entries g u E) g' a b =
      (if g = g' ∧ u = b then cnt a E else 0) + (if g = g' ∧ u = a then cnt b E else 0) := by
  rw [init_ledger_entries_eq]
  by_cases hE : E.isEmpty
  · have hnil : E = [] := by
      cases E with
      | nil => rfl
      | cons x xs => simp [List.isEmpty] at hE
    subst hnil
    simp [countL, cnt]
  · rw [if_neg hE, countL_append, countL_map_pair_left, countL_map_pair_right]

/-! ## Membership counting -/

theorem pcount_append (p : Nat × Nat) (l1 l2 : List (Nat × Nat)) :
    pcount p (l1 ++ l2) = pcount p l1 + pcount p l2 := by
  induction l1 with
  | nil => simp [pcount]
  | cons q qs ih => rw [List.cons_append, pcount_cons, pcount_cons, ih]; ring

theorem pcount_eq_zero_of_not_mem (p : Nat × Nat) (l : List (Nat × Nat)) (h : p ∉ l) :
    pcount p l = 0 := by
  induction l with
  | nil => rfl
  | cons q qs ih =>
      rw [pcount_cons, ih (fun hm => h (List.mem_cons_of_mem _ hm)),
        if_neg (fun he : q = p => h (he ▸ List.mem_cons_self _ _))]

theorem pcount_pos_of_mem (p : Nat × Nat) (l : List (Nat × Nat)) (h : p ∈ l) :
    1 ≤ pcount p l := by
  induction l with
  | nil => cases h
  | cons q qs ih =>
      rw [pcount_cons]
      rcases List.mem_cons.mp h with he | hm
      · rw [if_pos he.symm]; omega
      · have := ih hm; omega

theorem pcount_of_unique (p : Nat × Nat) (l : List (Nat × Nat))
    (hu : pcount p l ≤ 1) : pcount p l = if p ∈ l then 1 else 0 := by
  by_cases hm : p ∈ l
  · rw [if_pos hm]
    exact le_antisymm hu (pcount_pos_of_mem p l hm)
  · rw [if_neg hm]
    exact pcount_eq_zero_of_not_mem p l hm

theorem cnt_get_users_by_group (x g : Nat) (l : List (Nat × Nat)) :
    cnt x (get_users_by_group l g) = pcount (x, g) l := by
  induction l with
  | nil => rfl
  | cons m ms ih =>
      unfold get_users_by_group at *
      by_cases h2 : m.2 = g
      · rw [List.filter_cons_of_pos (by simpa using h2), List.map_cons, cnt_cons, ih,
          pcount_cons]
        by_cases h1 : m.1 = x
        · rw [if_pos h1, if_pos (Prod.ext h1 h2)]
        · rw [if_neg h1, if_neg (fun he : m = (x, g) => h1 (by rw [he]))]
      · rw [List.filter_cons_of_neg (by simpa using h2), ih, pcount_cons,
          if_neg (fun he : m = (x, g) => h2 (by rw [he]))]
        omega

theorem cnt_filter_ne (x u : Nat) (l : List Nat) :
    cnt x (l.filter (fun id => id != u)) = if x = u then 0 else cnt x l := by
  induction l with
  | nil => simp [cnt]
  | cons y ys ih =>
      by_cases hy : y = u
      · rw [List.filter_cons_of_neg (by simp [hy]), ih, cnt_cons]
        by_cases hx : x = u
        · rw [if_pos hx, if_pos hx]
        · rw [if_neg hx, if_neg hx, if_neg (fun he : y = x => hx (he ▸ hy)), ]
          ring
      · rw [List.filter_cons_of_pos (by simp [hy]), cnt_cons, ih, cnt_cons]
        by_cases hx : x = u
        · rw [if_pos hx, if_pos hx, if_neg (fun he : y = x => hy (hx ▸ he))]
        · rw [if_neg hx, if_neg hx]

theorem cnt_other_users (mem : List (Nat × Nat)) (u g x : Nat) :
    cnt x ((get_users_by_group (mem ++ [(u, g)]) g).filter (fun id => id != u)) =
      if x = u then 0 else pcount (x, g) mem := by
  rw [cnt_filter_ne]
  by_cases hx : x = u
  · rw [if_pos hx, if_pos hx]
  · rw [if_neg hx, if_neg hx, cnt_get_users_by_group, pcount_append, pcount_cons]
    rw [if_neg (fun he : (u, g) = (x, g) => hx (by injection he with h1 _; exact h1.symm))]
    rfl

/-! ## Characterizations of successful operations -/

theorem add_user_to_group_ok (s : Db) (u g : Nat) (s1 : Db)
    (h : add_user_to_group s u g = .ok s1) :
    (u, g) ∉ s.memberships ∧
    s1.memberships = s.memberships ++ [(u, g)] ∧
    s1.ledgers = s.ledgers ++
      init_ledger_entries g u
        ((get_users_by_group (s.memberships ++ [(u, g)]) g).filter (fun id => id != u)) ∧
    s1.transactions = s.transactions := by
  unfold add_user_to_group at h
  by_cases hm : (u, g) ∈ s.memberships
  · rw [if_pos hm] at h
    cases h
  · rw [if_neg hm] at h
    refine ⟨hm, ?_, ?_, ?_⟩ <;>
      · injection h with h1
        rw [← h1]

theorem create_transaction_ok (s : Db) (u : Nat) (req : NewTx) (s1 : Db)
    (resp : TransactionRow) (h : create_transaction s u req = .ok s1 resp) :
    is_user_in_group s u req.group_id = true ∧
    is_user_in_group s req.payee_id req.group_id = true ∧
    s1.memberships = s.memberships ∧
    s1.ledgers =
      ledgerSub req.group_id req.payee_id u
        (if TxType.Debit = req.tx_type then -req.amount else req.amount)
        (ledgerAdd req.group_id u req.payee_id
          (if TxType.Debit = req.tx_type then -req.amount else req.amount) s.ledgers) ∧
    s1.transactions = s.transactions ++
      [{ payer_id := u, payee_id := req.payee_id, group_id := req.group_id,
         amount := (if TxType.Debit = req.tx_type then -req.amount else req.amount),
         tx_type := req.tx_type, ack_status := .NotAck,
         metadata := req.metadata.getD [] }] ∧
    resp = { payer_id := u, payee_id := req.payee_id, group_id := req.group_id,
             amount := req.amount, tx_type := req.tx_type, ack_status := .NotAck,
             metadata := req.metadata.getD [] } := by
  unfold create_transaction at h
  by_cases h1 : is_user_in_group s u req.group_id = true
  · by_cases h2 : is_user_in_group s req.payee_id req.group_id = true
    · rw [if_neg (by simp [h1]), if_neg (by simp [h2])] at h
      injection h with hs hr
      refine ⟨h1, h2, ?_, ?_, ?_, hr.symm⟩ <;> rw [← hs]
    · have hb2 : is_user_in_group s req.payee_id req.group_id = false := by simpa using h2
      rw [if_neg (by simp [h1]), if_pos (by simp [hb2])] at h
      cases h
  · have hb1 : is_user_in_group s u req.group_id = false := by simpa using h1
    rw [if_pos (by simp [hb1])] at h
    cases h

theorem is_user_in_group_iff (s : Db) (u g : Nat) :
    is_user_in_group s u g = true ↔ (u, g) ∈ s.memberships := by
  unfold is_user_in_group
  rw [List.any_eq_true]
  constructor
  · rintro ⟨m, hm, he⟩
    rw [Bool.and_eq_true, beq_iff_eq, beq_iff_eq] at he
    have hmq : m = (u, g) := Prod.ext he.1 he.2
    exact hmq ▸ hm
  · intro hm
    exact ⟨(u, g), hm, by simp⟩

/-! ## The state invariants -/

/-- Every membership pair occurs at most once (the `unique (group_id, user_id)`
constraint). -/
def UniqueMemberships (s : Db) : Prop :=
  ∀ p : Nat × Nat, pcount p s.memberships ≤ 1

/-- Invariant I2 together with row uniqueness and the no-self-pair property:
the ledger holds exactly one `(g, a, b)` row when `a` and `b` are distinct
co-members of `g`, and none otherwise. -/
def GoodCounts (s : Db) : Prop :=
  ∀ g a b, countL s.ledgers g a b =
    if a ≠ b ∧ (a, g) ∈ s.memberships ∧ (b, g) ∈ s.memberships then 1 else 0

/-- Invariant I1: mirrored balances are opposite. -/
def MirrorBal (s : Db) : Prop :=
  ∀ g a b, balL s.ledgers g a b = - balL s.ledgers g b a

/-- The conjunction of all state invariants. -/
def Invariant (s : Db) : Prop :=
  UniqueMemberships s ∧ GoodCounts s ∧ MirrorBal s

theorem pcount_nil (p : Nat × Nat) : pcount p [] = 0 := rfl

theorem unique_add (s : Db) (u g : Nat) (s1 : Db) (hU : UniqueMemberships s)
    (h : add_user_to_group s u g = .ok s1) : UniqueMemberships s1 := by
  obtain ⟨hnm, hmem, -, -⟩ := add_user_to_group_ok s u g s1 h
  intro p
  rw [hmem, pcount_append, pcount_cons, pcount_nil]
  by_cases hp : (u, g) = p
  · rw [if_pos hp]
    have h0 : pcount p s.memberships = 0 := pcount_eq_zero_of_not_mem _ _ (hp ▸ hnm)
    omega
  · rw [if_neg hp]
    have := hU p
    omega

theorem goodCounts_add (s : Db) (u g : Nat) (s1 : Db) (hU : UniqueMemberships s)
    (hGC : GoodCounts s) (h : add_user_to_group s u g = .ok s1) : GoodCounts s1 := by
  obtain ⟨hnm, hmem, hled, -⟩ := add_user_to_group_ok s u g s1 h
  intro g'' a b
  rw [hled, countL_append, hGC g'' a b, countL_init_ledger_entries, hmem,
    cnt_other_users, cnt_other_users,
    pcount_of_unique (a, g) s.memberships (hU _),
    pcount_of_unique (b, g) s.memberships (hU _)]
  simp only [List.mem_append, List.mem_singleton, Prod.mk.injEq]
  by_cases hg : g = g''
  · subst hg
    by_cases hau : a = u
    · subst hau
      by_cases hba : b = a
      · simp [hba, hnm]
      · have hab : ¬ a = b := fun he => hba he.symm
        simp [hba, hab, hnm]
    · by_cases hbu : b = u
      · subst hbu
        have hba : ¬ b = a := fun he => hau he.symm
        have hab : ¬ a = b := fun he => hba he.symm
        simp [hba, hab, hnm]
      · have hua : ¬ u = a := fun he => hau he.symm
        have hub : ¬ u = b := fun he => hbu he.symm
        simp [hau, hbu, hua, hub]
  · have hg2 : ¬ g'' = g := fun he => hg he.symm
    simp [hg, hg2]

theorem mirrorBal_add (s : Db) (u g : Nat) (s1 : Db) (hMB : MirrorBal s)
    (h : add_user_to_group s u g = .ok s1) : MirrorBal s1 := by
  obtain ⟨-, -, hled, -⟩ := add_user_to_group_ok s u g s1 h
  intro g' x y
  rw [hled, balL_append, balL_append, balL_init_ledger_entries,
    balL_init_ledger_entries, hMB g' x y]
  ring

theorem unique_post (s : Db) (u : Nat) (req : NewTx) (s1 : Db) (resp : TransactionRow)
    (hU : UniqueMemberships s) (h : create_transaction s u req = .ok s1 resp) :
    UniqueMemberships s1 := by
  obtain ⟨-, -, hmem, -, -, -⟩ := create_transaction_ok s u req s1 resp h
  intro p
  rw [hmem]
  exact hU p

theorem goodCounts_post (s : Db) (u : Nat) (req : NewTx) (s1 : Db) (resp : TransactionRow)
    (hGC : GoodCounts s) (h : create_transaction s u req = .ok s1 resp) :
    GoodCounts s1 := by
  obtain ⟨-, -, hmem, hled, -, -⟩ := create_transaction_ok s u req s1 resp h
  intro g'' a b
  rw [hled, countL_ledgerSub, countL_ledgerAdd, hGC g'' a b, hmem]

theorem mirrorBal_post (s : Db) (u : Nat) (req : NewTx) (s1 : Db) (resp : TransactionRow)
    (hGC : GoodCounts s) (hMB : MirrorBal s)
    (h : create_transaction s u req = .ok s1 resp) : MirrorBal s1 := by
  obtain ⟨-, -, -, hled, -, -⟩ := create_transaction_ok s u req s1 resp h
  intro g' x y
  have hcsym : countL s.ledgers req.group_id req.payee_id u =
      countL s.ledgers req.group_id u req.payee_id := by
    rw [hGC, hGC]
    exact if_congr (by tauto) rfl rfl
  rw [hled, balL_ledgerSub, balL_ledgerAdd, balL_ledgerSub, balL_ledgerAdd,
    countL_ledgerAdd, hcsym, hMB g' x y,
    if_congr (show (req.group_id = g' ∧ req.payee_id = x ∧ u = y) ↔
        (req.group_id = g' ∧ u = y ∧ req.payee_id = x) from by tauto) rfl rfl,
    if_congr (show (req.group_id = g' ∧ req.payee_id = y ∧ u = x) ↔
        (req.group_id = g' ∧ u = x ∧ req.payee_id = y) from by tauto) rfl rfl]
  ring

theorem invariant_initDb : Invariant initDb := by
  refine ⟨fun p => ?_, fun g a b => ?_, fun g a b => ?_⟩
  · simp [initDb, pcount]
  · simp [initDb, countL]
  · simp [initDb, balL]

theorem invariant_step (s : Db) (op : Op) (h : Invariant s) : Invariant (step s op) := by
  obtain ⟨hU, hGC, hMB⟩ := h
  cases op with
  | addMember u g =>
      simp only [step]
      cases hres : add_user_to_group s u g with
      | ok s1 =>
          exact ⟨unique_add s u g s1 hU hres, goodCounts_add s u g s1 hU hGC hres,
            mirrorBal_add s u g s1 hMB hres⟩
      | err e => exact ⟨hU, hGC, hMB⟩
  | postTx u req =>
      simp only [step]
      cases hres : create_transaction s u req with
      | ok s1 resp =>
          exact ⟨unique_post s u req s1 resp hU hres,
            goodCounts_post s u req s1 resp hGC hres,
            mirrorBal_post s u req s1 resp hGC hMB hres⟩
      | err e => exact ⟨hU, hGC, hMB⟩

theorem invariant_foldl (ops : List Op) (s : Db) (h : Invariant s) :
    Invariant (ops.foldl step s) := by
  induction ops generalizing s with
  | nil => exact h
  | cons op ops ih => exact ih _ (invariant_step s op h)

theorem invariant_run (ops : List Op) : Invariant (run ops) :=
  invariant_foldl ops initDb invariant_initDb

theorem invariant_reachable (s : Db) (h : Reachable s) : Invariant s := by
  obtain ⟨ops, rfl⟩ := h
  exact invariant_run ops

theorem lmatch_self (r : LedgerRow) :
    lmatch r.group_id r.this_user r.other_user r = true := by
  simp [lmatch]

theorem countL_pos_of_mem (rows : List LedgerRow) (g a b : Nat) (r : LedgerRow)
    (hr : r ∈ rows) (hm : lmatch g a b r = true) : 1 ≤ countL rows g a b := by
  induction rows with
  | nil => cases hr
  | cons q qs ih =>
      rw [countL_cons]
      rcases List.mem_cons.mp hr with he | hmem
      · rw [← he, if_pos hm]
        omega
      · have := ih hmem
        omega

theorem balL_avoid (rows : List LedgerRow) (u g a b : Nat)
    (hend : ∀ r ∈ rows, r.this_user = u ∨ r.other_user = u)
    (ha : a ≠ u) (hb : b ≠ u) : balL rows g a b = 0 := by
  induction rows with
  | nil => rfl
  | cons r rs ih =>
      rw [balL_cons, ih (fun q hq => hend q (List.mem_cons_of_mem _ hq))]
      have hnm : ¬ (lmatch g a b r = true) := by
        rw [lmatch_iff]
        rintro ⟨-, h2, h3⟩
        rcases hend r (List.mem_cons_self _ _) with he | he
        · exact ha (h2 ▸ he)
        · exact hb (h3 ▸ he)
      rw [if_neg hnm]
      ring

theorem ledgerAdd_of_countL_zero (rows : List LedgerRow) (g a b : Nat) (d : Int)
    (h : countL rows g a b = 0) : ledgerAdd g a b d rows = rows := by
  induction rows with
  | nil => rfl
  | cons r rs ih =>
      rw [countL_cons] at h
      have hm : ¬ (lmatch g a b r = true) := by
        intro hm
        rw [if_pos hm] at h
        omega
      rw [ledgerAdd_cons, if_neg hm, ih (by omega)]

theorem ledgerSub_of_countL_zero (rows : List LedgerRow) (g a b : Nat) (d : Int)
    (h : countL rows g a b = 0) : ledgerSub g a b d rows = rows := by
  induction rows with
  | nil => rfl
  | cons r rs ih =>
      rw [countL_cons] at h
      have hm : ¬ (lmatch g a b r = true) := by
        intro hm
        rw [if_pos hm] at h
        omega
      rw [ledgerSub_cons, if_neg hm, ih (by omega)]

/-! ## Claim theorems -/

/-- C1: for every group G and every ordered pair (A,B) of distinct members,
after any sequence of successful `add_member` / `post_transaction` operations
starting from the empty ledger, `get_balance(G,A,B) = -get_balance(G,B,A)`. -/
theorem C1_mirror_balance (ops : List Op) (g a b : Nat) (hab : a ≠ b) :
    get_balance (run ops) g a b = - get_balance (run ops) g b a :=
  (invariant_run ops).2.2 g a b

theorem C1_mirror_balance_witness :
    (1 : Nat) ≠ 2 ∧
    get_balance (run [.addMember 1 10, .addMember 2 10,
        .postTx 1 { group_id := 10, payee_id := 2, amount := 500,
                    tx_type := .Credit, metadata := none }]) 10 1 2 =
      - get_balance (run [.addMember 1 10, .addMember 2 10,
          .postTx 1 { group_id := 10, payee_id := 2, amount := 500,
                      tx_type := .Credit, metadata := none }]) 10 2 1 :=
  ⟨by decide,
   C1_mirror_balance [.addMember 1 10, .addMember 2 10,
     .postTx 1 { group_id := 10, payee_id := 2, amount := 500,
                 tx_type := .Credit, metadata := none }] 10 1 2 (by decide)⟩

/-- C3: the ledger initializer inserts nothing when the peer snapshot is
empty; otherwise the bulk insert keyed by the two parallel id arrays
(`E ++ u^len(E)` on the left, `u^len(E) ++ E` on the right) inserts exactly
the rows `(G,m,u,0)` followed by `(G,u,m,0)` for every `m` in `E`, each with
amount `0`. -/
theorem C3_init_ledger_rows (g u : Nat) (E : List Nat) :
    init_ledger_entries g u E =
      if E.isEmpty then []
      else
        E.map (fun m => ({ group_id := g, this_user := m, other_user := u, amount := 0 } : LedgerRow)) ++
          E.map (fun m => ({ group_id := g, this_user := u, other_user := m, amount := 0 } : LedgerRow)) :=
  init_ledger_entries_eq g u E

/-- C6: when the payer or the payee is not a current member of the group,
`create_transaction` fails (with `Forbidden`) before performing any write:
the resulting state is unchanged, so no Transaction row and no ledger
mutation are observable. -/
theorem C6_not_a_member_no_write (s : Db) (payer : Nat) (req : NewTx)
    (h : (payer, req.group_id) ∉ s.memberships ∨
      (req.payee_id, req.group_id) ∉ s.memberships) :
    create_transaction s payer req = .err .Forbidden ∧
      step s (.postTx payer req) = s := by
  have herr : create_transaction s payer req = .err .Forbidden := by
    unfold create_transaction
    by_cases h1 : is_user_in_group s payer req.group_id = true
    · have h2 : ¬ is_user_in_group s req.payee_id req.group_id = true := by
        rw [is_user_in_group_iff]
        rcases h with h | h
        · exact absurd ((is_user_in_group_iff s payer req.group_id).mp h1) h
        · exact h
      have hb2 : is_user_in_group s req.payee_id req.group_id = false := by simpa using h2
      rw [if_neg (by simp [h1]), if_pos (by simp [hb2])]
    · have hb1 : is_user_in_group s payer req.group_id = false := by simpa using h1
      rw [if_pos (by simp [hb1])]
  refine ⟨herr, ?_⟩
  simp only [step]
  rw [herr]

theorem C6_not_a_member_no_write_witness :
    ((1, 10) ∉ (run [.addMember 1 10]).memberships ∨
      (2, 10) ∉ (run [.addMember 1 10]).memberships) ∧
    (create_transaction (run [.addMember 1 10]) 1
        { group_id := 10, payee_id := 2, amount := 7, tx_type := .Credit,
          metadata := none } = .err .Forbidden ∧
      step (run [.addMember 1 10])
        (.postTx 1 { group_id := 10, payee_id := 2, amount := 7,
                     tx_type := .Credit, metadata := none }) =
        run [.addMember 1 10]) :=
  ⟨Or.inr (by decide),
   C6_not_a_member_no_write (run [.addMember 1 10]) 1
     { group_id := 10, payee_id := 2, amount := 7, tx_type := .Credit,
       metadata := none } (Or.inr (by decide))⟩

/-- C7: posting `(payer, payee, amt, Debit, meta)` produces exactly the same
ledger effect as posting `(payer, payee, -amt, Credit, meta)` — the resulting
ledger states are equal (in particular the amounts on both mirrored rows). -/
theorem C7_sign_flip (s : Db) (u g payee : Nat) (amt : Int)
    (meta : Option (List (String × String))) :
    (step s (.postTx u { group_id := g, payee_id := payee, amount := amt, tx_type := .Debit, metadata := meta })).ledgers =
    (step s (.postTx u { group_id := g, payee_id := payee, amount := -amt, tx_type := .Credit, metadata := meta })).ledgers := by
  simp only [step]
  unfold create_transaction
  by_cases h1 : is_user_in_group s u g = true
  · by_cases h2 : is_user_in_group s payee g = true
    · simp [h1, h2]
    · have hb2 : is_user_in_group s payee g = false := by simpa using h2
      simp [h1, hb2]
  · have hb1 : is_user_in_group s u g = false := by simpa using h1
    simp [hb1]

/-- C9: no operation ever creates a ledger row whose `this_user` equals its
`other_user`: in every reachable state every ledger row has distinct
endpoints (the new member is excluded from the snapshot by the id filter). -/
theorem C9_no_self_pairs (ops : List Op) (r : LedgerRow)
    (hr : r ∈ (run ops).ledgers) : r.this_user ≠ r.other_user := by
  intro heq
  have hGC := (invariant_run ops).2.1
  have hzero := hGC r.group_id r.this_user r.other_user
  rw [if_neg (fun hcon => hcon.1 heq)] at hzero
  have hpos := countL_pos_of_mem (run ops).ledgers r.group_id r.this_user r.other_user r hr
    (lmatch_self r)
  omega

theorem C9_no_self_pairs_witness :
    (⟨10, 1, 2, 0⟩ : LedgerRow) ∈ (run [.addMember 1 10, .addMember 2 10]).ledgers ∧
    (⟨10, 1, 2, 0⟩ : LedgerRow).this_user ≠ (⟨10, 1, 2, 0⟩ : LedgerRow).other_user :=
  ⟨by decide,
   C9_no_self_pairs [.addMember 1 10, .addMember 2 10] ⟨10, 1, 2, 0⟩ (by decide)⟩

/-- C8: a successful `add_user_to_group(G,C)` only appends ledger rows that
have the new member `C` as one endpoint, and leaves the amount (balance) of
every pre-existing pair not involving `C` unchanged. -/
theorem C8_frame_on_join (s : Db) (c g : Nat) (s1 : Db)
    (h : add_user_to_group s c g = .ok s1) :
    (∃ new, s1.ledgers = s.ledgers ++ new ∧
      ∀ r ∈ new, r.this_user = c ∨ r.other_user = c) ∧
    ∀ g' a b, a ≠ c → b ≠ c → get_balance s1 g' a b = get_balance s g' a b := by
  obtain ⟨-, -, hled, -⟩ := add_user_to_group_ok s c g s1 h
  refine ⟨⟨_, hled, fun r hr => init_ledger_entries_endpoint g c _ r hr⟩, ?_⟩
  intro g' a b ha hb
  unfold get_balance
  rw [hled, balL_append,
    balL_avoid _ c g' a b (fun r hr => init_ledger_entries_endpoint g c _ r hr) ha hb]
  ring

theorem C8_frame_on_join_witness :
    get_balance (⟨[(1, 10), (2, 10), (3, 10)],
        [⟨10, 1, 2, 0⟩, ⟨10, 2, 1, 0⟩, ⟨10, 1, 3, 0⟩, ⟨10, 2, 3, 0⟩,
         ⟨10, 3, 1, 0⟩, ⟨10, 3, 2, 0⟩], []⟩ : Db) 10 1 2 =
      get_balance (run [.addMember 1 10, .addMember 2 10]) 10 1 2 :=
  (C8_frame_on_join (run [.addMember 1 10, .addMember 2 10]) 3 10
      ⟨[(1, 10), (2, 10), (3, 10)],
        [⟨10, 1, 2, 0⟩, ⟨10, 2, 1, 0⟩, ⟨10, 1, 3, 0⟩, ⟨10, 2, 3, 0⟩,
         ⟨10, 3, 1, 0⟩, ⟨10, 3, 2, 0⟩], []⟩ (by decide)).2 10 1 2
    (by decide) (by decide)

/-- C10: `create_transaction` does not reject `payer = payee`: when the
authenticated member names themself as payee, the membership checks pass, the
call succeeds and commits the Transaction row, while both ledger updates
match no row (no `(u,u)` ledger row exists in a reachable state), so the
ledger is unchanged. -/
theorem C10_self_transaction (s : Db) (u : Nat) (req : NewTx)
    (hreach : Reachable s) (hmem : (u, req.group_id) ∈ s.memberships)
    (hself : req.payee_id = u) :
    create_transaction s u req =
      .ok { s with transactions := s.transactions ++
              [{ payer_id := u, payee_id := u, group_id := req.group_id, amount := (if TxType.Debit = req.tx_type then -req.amount else req.amount), tx_type := req.tx_type, ack_status := .NotAck, metadata := req.metadata.getD [] }] }
        { payer_id := u, payee_id := u, group_id := req.group_id, amount := req.amount, tx_type := req.tx_type, ack_status := .NotAck, metadata := req.metadata.getD [] } := by
  obtain ⟨-, hGC, -⟩ := invariant_reachable s hreach
  have hb : is_user_in_group s u req.group_id = true :=
    (is_user_in_group_iff s u req.group_id).mpr hmem
  have hb2 : is_user_in_group s req.payee_id req.group_id = true := by
    rw [hself]
    exact hb
  have h0 : countL s.ledgers req.group_id u u = 0 := by
    rw [hGC]
    exact if_neg (fun hcon => hcon.1 rfl)
  simp only [create_transaction, hb, hb2, Bool.not_true, Bool.false_eq_true, if_false]
  rw [hself, ledgerAdd_of_countL_zero s.ledgers req.group_id u u _ h0,
    ledgerSub_of_countL_zero s.ledgers req.group_id u u _ h0]

theorem C10_self_transaction_witness :
    create_transaction (run [.addMember 1 10]) 1
        { group_id := 10, payee_id := 1, amount := 5, tx_type := .Credit, metadata := none } =
      .ok { run [.addMember 1 10] with
              transactions := (run [.addMember 1 10]).transactions ++ [⟨1, 1, 10, 5, .Credit, .NotAck, []⟩] }
        ⟨1, 1, 10, 5, .Credit, .NotAck, []⟩ :=
  C10_self_transaction (run [.addMember 1 10]) 1
    { group_id := 10, payee_id := 1, amount := 5, tx_type := .Credit, metadata := none }
    ⟨[.addMember 1 10], rfl⟩ (by decide) rfl

/-- C2 as stated is false: with `payer = payee` (a current member naming
themself), the posting succeeds but `get_balance(G,payer,payee)` changes by
`0`, not by the signed amount `5`. -/
theorem C2_counterexample :
    (1, 10) ∈ (run [.addMember 1 10]).memberships ∧
    create_transaction (run [.addMember 1 10]) 1
        { group_id := 10, payee_id := 1, amount := 5, tx_type := .Credit, metadata := none } =
      .ok ⟨[(1, 10)], [], [⟨1, 1, 10, 5, .Credit, .NotAck, []⟩]⟩
        ⟨1, 1, 10, 5, .Credit, .NotAck, []⟩ ∧
    get_balance (⟨[(1, 10)], [], [⟨1, 1, 10, 5, .Credit, .NotAck, []⟩]⟩ : Db) 10 1 1 -
      get_balance (run [.addMember 1 10]) 10 1 1 = 0 ∧
    (0 : Int) ≠ 5 := by decide

/-- C2 (amended): for *distinct* current members `payer ≠ payee` of a
reachable state, a successful posting changes `get_balance(G,payer,payee)` by
exactly the signed amount, `get_balance(G,payee,payer)` by exactly its
negation, and no other ledger balance changes. -/
theorem C2_additivity (s : Db) (payer : Nat) (req : NewTx) (s1 : Db)
    (resp : TransactionRow) (hreach : Reachable s) (hne : payer ≠ req.payee_id)
    (hp : (payer, req.group_id) ∈ s.memberships)
    (hq : (req.payee_id, req.group_id) ∈ s.memberships)
    (hok : create_transaction s payer req = .ok s1 resp) :
    get_balance s1 req.group_id payer req.payee_id =
      get_balance s req.group_id payer req.payee_id +
        (if TxType.Debit = req.tx_type then -req.amount else req.amount) ∧
    get_balance s1 req.group_id req.payee_id payer =
      get_balance s req.group_id req.payee_id payer -
        (if TxType.Debit = req.tx_type then -req.amount else req.amount) ∧
    ∀ g' x y, ¬(g' = req.group_id ∧ x = payer ∧ y = req.payee_id) →
      ¬(g' = req.group_id ∧ x = req.payee_id ∧ y = payer) →
      get_balance s1 g' x y = get_balance s g' x y := by
  obtain ⟨-, hGC, -⟩ := invariant_reachable s hreach
  obtain ⟨-, -, -, hled, -, -⟩ := create_transaction_ok s payer req s1 resp hok
  have hc1 : countL s.ledgers req.group_id payer req.payee_id = 1 := by
    rw [hGC]
    exact if_pos ⟨hne, hp, hq⟩
  have hc2 : countL s.ledgers req.group_id req.payee_id payer = 1 := by
    rw [hGC]
    exact if_pos ⟨fun he => hne he.symm, hq, hp⟩
  refine ⟨?_, ?_, ?_⟩
  · unfold get_balance
    rw [hled, balL_ledgerSub, balL_ledgerAdd, countL_ledgerAdd, hc1,
      if_pos (⟨rfl, rfl, rfl⟩ :
        req.group_id = req.group_id ∧ payer = payer ∧ req.payee_id = req.payee_id),
      if_neg (fun hcon : req.group_id = req.group_id ∧ req.payee_id = payer ∧
        payer = req.payee_id => hne hcon.2.2)]
    push_cast
    ring
  · unfold get_balance
    rw [hled, balL_ledgerSub, balL_ledgerAdd, countL_ledgerAdd, hc2,
      if_pos (⟨rfl, rfl, rfl⟩ :
        req.group_id = req.group_id ∧ req.payee_id = req.payee_id ∧ payer = payer),
      if_neg (fun hcon : req.group_id = req.group_id ∧ payer = req.payee_id ∧
        req.payee_id = payer => hne hcon.2.1)]
    push_cast
    ring
  · intro g' x y hx hy
    unfold get_balance
    rw [hled, balL_ledgerSub, balL_ledgerAdd, countL_ledgerAdd,
      if_neg (fun hcon : req.group_id = g' ∧ payer = x ∧ req.payee_id = y =>
        hx ⟨hcon.1.symm, hcon.2.1.symm, hcon.2.2.symm⟩),
      if_neg (fun hcon : req.group_id = g' ∧ req.payee_id = x ∧ payer = y =>
        hy ⟨hcon.1.symm, hcon.2.1.symm, hcon.2.2.symm⟩)]
    ring

theorem C2_additivity_witness :
    get_balance (⟨[(1, 10), (2, 10)], [⟨10, 1, 2, 5⟩, ⟨10, 2, 1, -5⟩],
        [⟨1, 2, 10, 5, .Credit, .NotAck, []⟩]⟩ : Db) 10 1 2 =
      get_balance (run [.addMember 1 10, .addMember 2 10]) 10 1 2 +
        (if TxType.Debit = TxType.Credit then -(5 : Int) else 5) :=
  (C2_additivity (run [.addMember 1 10, .addMember 2 10]) 1
      { group_id := 10, payee_id := 2, amount := 5, tx_type := .Credit, metadata := none }
      ⟨[(1, 10), (2, 10)], [⟨10, 1, 2, 5⟩, ⟨10, 2, 1, -5⟩],
        [⟨1, 2, 10, 5, .Credit, .NotAck, []⟩]⟩
      ⟨1, 2, 10, 5, .Credit, .NotAck, []⟩
      ⟨[.addMember 1 10, .addMember 2 10], rfl⟩
      (by decide) (by decide) (by decide) (by decide)).1

/-- C4 as stated is false: with both members present but the mirrored ledger
rows absent, `create_transaction` does not fail — the two `UPDATE`s match
zero rows, which is no error, and the unit commits with the Transaction row
inserted (there is no `LedgerRowMissing` check of rows-affected). -/
theorem C4_counterexample :
    countL (⟨[(1, 10), (2, 10)], [], []⟩ : Db).ledgers 10 1 2 = 0 ∧
    countL (⟨[(1, 10), (2, 10)], [], []⟩ : Db).ledgers 10 2 1 = 0 ∧
    create_transaction (⟨[(1, 10), (2, 10)], [], []⟩ : Db) 1
        { group_id := 10, payee_id := 2, amount := 5, tx_type := .Credit, metadata := none } =
      .ok ⟨[(1, 10), (2, 10)], [], [⟨1, 2, 10, 5, .Credit, .NotAck, []⟩]⟩
        ⟨1, 2, 10, 5, .Credit, .NotAck, []⟩ ∧
    (⟨[(1, 10), (2, 10)], [], [⟨1, 2, 10, 5, .Credit, .NotAck, []⟩]⟩ : Db).transactions ≠ [] := by
  decide

/-- C4 (amended): the two mirrored updates run inside the same database
transaction as the Transaction insert and an *error* in either rolls the
whole unit back; but a missing target ledger row is not an error — the
update matches zero rows, the operation succeeds, the Transaction row is
committed and the ledger is left unchanged (no `LedgerRowMissing` failure
exists in the code). -/
theorem C4_missing_row_commits (s : Db) (payer : Nat) (req : NewTx)
    (hp : (payer, req.group_id) ∈ s.memberships)
    (hq : (req.payee_id, req.group_id) ∈ s.memberships)
    (h1 : countL s.ledgers req.group_id payer req.payee_id = 0)
    (h2 : countL s.ledgers req.group_id req.payee_id payer = 0) :
    create_transaction s payer req =
      .ok { s with transactions := s.transactions ++
              [{ payer_id := payer, payee_id := req.payee_id, group_id := req.group_id, amount := (if TxType.Debit = req.tx_type then -req.amount else req.amount), tx_type := req.tx_type, ack_status := .NotAck, metadata := req.metadata.getD [] }] }
        { payer_id := payer, payee_id := req.payee_id, group_id := req.group_id, amount := req.amount, tx_type := req.tx_type, ack_status := .NotAck, metadata := req.metadata.getD [] } := by
  have hb1 : is_user_in_group s payer req.group_id = true :=
    (is_user_in_group_iff s payer req.group_id).mpr hp
  have hb2 : is_user_in_group s req.payee_id req.group_id = true :=
    (is_user_in_group_iff s req.payee_id req.group_id).mpr hq
  simp only [create_transaction, hb1, hb2, Bool.not_true, Bool.false_eq_true, if_false]
  rw [ledgerAdd_of_countL_zero s.ledgers req.group_id payer req.payee_id _ h1,
    ledgerSub_of_countL_zero s.ledgers req.group_id req.payee_id payer _ h2]

theorem C4_missing_row_commits_witness :
    create_transaction (⟨[(1, 10), (2, 10)], [], []⟩ : Db) 1
        { group_id := 10, payee_id := 2, amount := 7, tx_type := .Credit, metadata := none } =
      .ok ⟨[(1, 10), (2, 10)], [], [⟨1, 2, 10, 7, .Credit, .NotAck, []⟩]⟩
        ⟨1, 2, 10, 7, .Credit, .NotAck, []⟩ :=
  C4_missing_row_commits (⟨[(1, 10), (2, 10)], [], []⟩ : Db) 1
    { group_id := 10, payee_id := 2, amount := 7, tx_type := .Credit, metadata := none }
    (by decide) (by decide) (by decide) (by decide)

/-- C5 as stated is false: for a `Debit` posting of declared amount `5`, the
committed `transactions` row stores the *normalized* amount `-5`, not the
caller's original declared amount (only the response body carries `5`). -/
theorem C5_counterexample :
    create_transaction (run [.addMember 1 10, .addMember 2 10]) 1
        { group_id := 10, payee_id := 2, amount := 5, tx_type := .Debit, metadata := none } =
      .ok ⟨[(1, 10), (2, 10)], [⟨10, 1, 2, -5⟩, ⟨10, 2, 1, 5⟩],
            [⟨1, 2, 10, -5, .Debit, .NotAck, []⟩]⟩
        ⟨1, 2, 10, 5, .Debit, .NotAck, []⟩ ∧
    (⟨1, 2, 10, -5, .Debit, .NotAck, []⟩ : TransactionRow).amount ≠
      (⟨10, 2, 5, .Debit, none⟩ : NewTx).amount := by
  decide

/-- C5 (amended): the Transaction row inserted by a successful posting stores
the *normalized signed* amount together with the original kind; the caller's
original declared amount and kind are preserved on the returned response
body, and the same signed delta is what is applied to the ledger rows. -/
theorem C5_stored_normalized (s : Db) (u : Nat) (req : NewTx) (s1 : Db)
    (resp : TransactionRow) (hok : create_transaction s u req = .ok s1 resp) :
    s1.transactions = s.transactions ++
      [{ payer_id := u, payee_id := req.payee_id, group_id := req.group_id, amount := (if TxType.Debit = req.tx_type then -req.amount else req.amount), tx_type := req.tx_type, ack_status := .NotAck, metadata := req.metadata.getD [] }] ∧
    resp.amount = req.amount ∧ resp.tx_type = req.tx_type := by
  obtain ⟨-, -, -, -, htx, hresp⟩ := create_transaction_ok s u req s1 resp hok
  refine ⟨htx, ?_, ?_⟩ <;> rw [hresp]

theorem C5_stored_normalized_witness :
    (⟨[(1, 10), (2, 10)], [⟨10, 1, 2, -7⟩, ⟨10, 2, 1, 7⟩],
        [⟨1, 2, 10, -7, .Debit, .NotAck, []⟩]⟩ : Db).transactions =
      (run [.addMember 1 10, .addMember 2 10]).transactions ++
        [⟨1, 2, 10, -7, .Debit, .NotAck, []⟩] ∧
    (⟨1, 2, 10, 7, .Debit, .NotAck, []⟩ : TransactionRow).amount = 7 ∧
    (⟨1, 2, 10, 7, .Debit, .NotAck, []⟩ : TransactionRow).tx_type = .Debit :=
  C5_stored_normalized (run [.addMember 1 10, .addMember 2 10]) 1
    { group_id := 10, payee_id := 2, amount := 7, tx_type := .Debit, metadata := none }
    ⟨[(1, 10), (2, 10)], [⟨10, 1, 2, -7⟩, ⟨10, 2, 1, 7⟩],
      [⟨1, 2, 10, -7, .Debit, .NotAck, []⟩]⟩
    ⟨1, 2, 10, 7, .Debit, .NotAck, []⟩ (by decide)
